import Mathlib

/-!
Shallow embedding of the `new_send_swap` Anchor program
(`programs/new_send_swap/src/lib.rs`): a two-asset constant-product AMM
with pool initialization, liquidity provisioning, fee-bearing swaps and
proportional withdrawal.  All `u64` arithmetic is modelled over `Nat`
with explicit bounds against `u64::MAX`; Rust `checked_*` operations
become `Option`-valued functions, `saturating_mul` clamps at
`u64::MAX`, and each instruction handler becomes a function returning
either an error or the updated account state.
-/

namespace NewSendSwap

/-- `u64::MAX` = 2^64 - 1. -/
def U64MAX : Nat := 18446744073709551615

/-- The program's error enum `AmmError` (lib.rs lines 6-14). -/
inductive AmmError where
  | SlippageExceeded
  | ArithmeticOverflow
  | InvalidAmount
deriving DecidableEq, Repr

/-- Rust `u64::checked_mul`: `none` on overflow past `u64::MAX`. -/
def checkedMul (a b : Nat) : Option Nat :=
  if a * b ≤ U64MAX then some (a * b) else none

/-- Rust `u64::checked_div`: `none` exactly on division by zero. -/
def checkedDiv (a b : Nat) : Option Nat :=
  if b = 0 then none else some (a / b)

/-- Rust `u64::checked_sub`: `none` on underflow. -/
def checkedSub (a b : Nat) : Option Nat :=
  if b ≤ a then some (a - b) else none

/-- Rust `u64::checked_add`: `none` on overflow past `u64::MAX`. -/
def checkedAdd (a b : Nat) : Option Nat :=
  if a + b ≤ U64MAX then some (a + b) else none

/-- Rust `u64::saturating_mul`: clamps the product at `u64::MAX`. -/
def satMul (a b : Nat) : Nat :=
  min (a * b) U64MAX

/-- The `Pool` account record (lib.rs lines 575-586); `Pubkey`s are
modelled as `Nat` identifiers. -/
structure Pool where
  tokenAMint : Nat
  tokenBMint : Nat
  tokenAAccount : Nat
  tokenBAccount : Nat
  lpMint : Nat
  feeNumerator : Nat
  feeDenominator : Nat
  authority : Nat
  bump : Nat
deriving DecidableEq, Repr

/-- The `initialize_pool` handler (lib.rs lines 20-44): it only copies
the supplied keys and fee parameters into the `Pool` record and
succeeds; the emitted `PoolCreatedEvent` carries a display-only
floating-point ratio and is not part of the state. -/
def initializePool (tokenAMint tokenBMint tokenAAccount tokenBAccount
    lpMint authority bump feeNumerator feeDenominator : Nat) :
    Except AmmError Pool :=
  .ok { tokenAMint := tokenAMint, tokenBMint := tokenBMint,
        tokenAAccount := tokenAAccount, tokenBAccount := tokenBAccount,
        lpMint := lpMint, feeNumerator := feeNumerator,
        feeDenominator := feeDenominator, authority := authority,
        bump := bump }

/-- The `amount_out` computation of `swap` (lib.rs lines 225-255):
direct constant-product quotient when `reserve_out * amount_in_after_fee`
fits in `u64`, otherwise the scaled fallback built from
`saturating_mul` with scale `10^9`. `den` is the already-checked sum
`reserve_in + amount_in_after_fee`. -/
def computeAmountOut (rOut aif den : Nat) : Nat :=
  if 0 < rOut ∧ 0 < aif then
    if U64MAX / aif < rOut then
      satMul rOut (satMul aif 1000000000 / den) / 1000000000
    else
      rOut * aif / den
  else 0

/-- The arithmetic and validation pipeline of `swap` (lib.rs lines
195-258): input validation, checked fee computation, reserve
validation, checked denominator, `amount_out`, and the slippage check.
Returns `(fee, amount_in_after_fee, amount_out)`. -/
def swapMath (feeNum feeDen rIn rOut amountIn minAmountOut : Nat) :
    Except AmmError (Nat × Nat × Nat) :=
  if amountIn = 0 then .error .InvalidAmount else
  match checkedMul amountIn feeNum with
  | none => .error .ArithmeticOverflow
  | some m =>
  match checkedDiv m feeDen with
  | none => .error .ArithmeticOverflow
  | some fee =>
  match checkedSub amountIn fee with
  | none => .error .ArithmeticOverflow
  | some aif =>
  if rIn = 0 then .error .InvalidAmount else
  if rOut = 0 then .error .InvalidAmount else
  match checkedAdd rIn aif with
  | none => .error .ArithmeticOverflow
  | some den =>
  let amountOut := computeAmountOut rOut aif den
  if amountOut < minAmountOut then .error .SlippageExceeded
  else .ok (fee, aif, amountOut)

/-- The decimal-normalization closure `normalize_amount` inside
`add_liquidity` (lib.rs lines 74-89): bring `rawAmount`, expressed with
`tokenDecimals` decimals, to the LP mint's decimal scale.  Rust's
`10u64.pow` is modelled as the exact power (it panics rather than
yields a value on overflow, which only occurs for a decimal gap above
19, outside SPL's practical range). -/
def normalizeAmount (lpDecimals rawAmount tokenDecimals : Nat) :
    Except AmmError Nat :=
  if tokenDecimals = lpDecimals then .ok rawAmount
  else if lpDecimals < tokenDecimals then
    .ok (rawAmount / 10 ^ (tokenDecimals - lpDecimals))
  else
    let multiplier := 10 ^ (lpDecimals - tokenDecimals)
    if U64MAX / multiplier < rawAmount then .error .ArithmeticOverflow
    else .ok (rawAmount * multiplier)

/-- One side of the proportional LP issuance in `add_liquidity`
(lib.rs lines 100-112 and 115-126): `normalizedAmount * lpSupply /
normalizedPool` when the normalized pool reserve, the normalized
deposit and the supply are all positive, with a pre-multiplication
overflow check; `0` otherwise. -/
def lpTokensSide (normalizedPool normalizedAmount lpSupply : Nat) :
    Except AmmError Nat :=
  if 0 < normalizedPool then
    if 0 < normalizedAmount ∧ 0 < lpSupply then
      if U64MAX / lpSupply < normalizedAmount then .error .ArithmeticOverflow
      else .ok (normalizedAmount * lpSupply / normalizedPool)
    else .ok 0
  else .ok 0

/-- The LP-issuance computation of `add_liquidity` (lib.rs lines
59-130): mint the fixed bootstrap amount `1_000_000` when both pool
reserve balances are zero, otherwise the minimum of the two
decimal-normalized proportional sides. -/
def lpTokensToMint (poolABalance poolBBalance lpSupply lpDecimals
    tokenADecimals tokenBDecimals amountA amountB : Nat) :
    Except AmmError Nat :=
  if poolABalance = 0 ∧ poolBBalance = 0 then .ok 1000000
  else
    match normalizeAmount lpDecimals amountA tokenADecimals with
    | .error e => .error e
    | .ok na =>
    match normalizeAmount lpDecimals amountB tokenBDecimals with
    | .error e => .error e
    | .ok nb =>
    match normalizeAmount lpDecimals poolABalance tokenADecimals with
    | .error e => .error e
    | .ok npa =>
    match normalizeAmount lpDecimals poolBBalance tokenBDecimals with
    | .error e => .error e
    | .ok npb =>
    match lpTokensSide npa na lpSupply with
    | .error e => .error e
    | .ok la =>
    match lpTokensSide npb nb lpSupply with
    | .error e => .error e
    | .ok lb => .ok (min la lb)

/-- One side of the proportional withdrawal in `remove_liquidity`
(lib.rs lines 337-346 and 348-357): `lp_amount * reserve / lp_supply`
when both `lp_amount` and the reserve are positive, with a
pre-multiplication overflow check; `0` otherwise. -/
def removeSide (lpAmount lpSupply reserve : Nat) :
    Except AmmError Nat :=
  if 0 < lpAmount ∧ 0 < reserve then
    if U64MAX / reserve < lpAmount then .error .ArithmeticOverflow
    else .ok (lpAmount * reserve / lpSupply)
  else .ok 0

/-- The withdrawal computation of `remove_liquidity` (lib.rs lines
326-357): validation of `lp_amount` and the share supply, then the
proportional amount for each side with a pre-multiplication overflow
check, a zero reserve contributing `0`. -/
def removeAmounts (lpAmount lpSupply poolABalance poolBBalance : Nat) :
    Except AmmError (Nat × Nat) :=
  if lpAmount = 0 then .error .InvalidAmount else
  if lpSupply = 0 then .error .InvalidAmount else
  match removeSide lpAmount lpSupply poolABalance with
  | .error e => .error e
  | .ok amountA =>
  match removeSide lpAmount lpSupply poolBBalance with
  | .error e => .error e
  | .ok amountB => .ok (amountA, amountB)

/-- An operation-level failure: one of the program's own `AmmError`s,
or a failure inside a token-program CPI (insufficient balance or
balance/supply overflow in the SPL token ledger). -/
inductive OpError where
  | amm (e : AmmError)
  | ledger
deriving DecidableEq, Repr

/-- SPL `token::transfer`: move `amount` between two balances, failing
on insufficient source funds or destination overflow. -/
def tokenTransfer (fromBalance toBalance amount : Nat) :
    Option (Nat × Nat) :=
  if amount ≤ fromBalance ∧ toBalance + amount ≤ U64MAX then
    some (fromBalance - amount, toBalance + amount)
  else none

/-- SPL `token::mint_to`: raise supply and destination balance by
`amount`, failing on overflow of either. -/
def tokenMintTo (supply toBalance amount : Nat) : Option (Nat × Nat) :=
  if supply + amount ≤ U64MAX ∧ toBalance + amount ≤ U64MAX then
    some (supply + amount, toBalance + amount)
  else none

/-- SPL `token::burn`: lower the source balance and supply by
`amount`, failing on underflow of either. -/
def tokenBurn (supply fromBalance amount : Nat) : Option (Nat × Nat) :=
  if amount ≤ fromBalance ∧ amount ≤ supply then
    some (supply - amount, fromBalance - amount)
  else none

/-- The token balances touched by `swap` (the `Swap` accounts struct,
lib.rs lines 497-534). -/
structure SwapAccounts where
  poolTokenIn : Nat
  poolTokenOut : Nat
  userTokenIn : Nat
  userTokenOut : Nat
  ownerToken : Nat
deriving DecidableEq, Repr

/-- The balances and share supply touched by `add_liquidity` and
`remove_liquidity` (the `AddLiquidity` / `RemoveLiquidity` accounts
structs, lib.rs lines 458-495 and 536-573). -/
structure LiqAccounts where
  poolTokenA : Nat
  poolTokenB : Nat
  userTokenA : Nat
  userTokenB : Nat
  userLp : Nat
  lpSupply : Nat
deriving DecidableEq, Repr

/-- The `swap` handler (lib.rs lines 191-315) as a sequential state
transition: validation and arithmetic first (`swapMath`), then the fee
side-payment to the owner when `fee > 0`, the net input transfer into
the pool reserve, and the output transfer to the user.  On an abort
the balances accumulated so far are returned, so an error before any
ledger instruction returns the input state unchanged.
`tokenInMint` and `tokenOutMint` are the caller-selected mint
identifiers; the handler never inspects them (they feed only the
emitted event). -/
def swapOp (pool : Pool) (tokenInMint tokenOutMint : Nat)
    (acc : SwapAccounts) (amountIn minAmountOut : Nat) :
    Option OpError × SwapAccounts :=
  match swapMath pool.feeNumerator pool.feeDenominator acc.poolTokenIn
      acc.poolTokenOut amountIn minAmountOut with
  | .error e => (some (.amm e), acc)
  | .ok (fee, aif, amountOut) =>
    let afterFee :=
      if 0 < fee then
        match tokenTransfer acc.userTokenIn acc.ownerToken fee with
        | none => none
        | some (u, o) => some { acc with userTokenIn := u, ownerToken := o }
      else some acc
    match afterFee with
    | none => (some .ledger, acc)
    | some acc1 =>
    match tokenTransfer acc1.userTokenIn acc1.poolTokenIn aif with
    | none => (some .ledger, acc1)
    | some (u, p) =>
    let acc2 := { acc1 with userTokenIn := u, poolTokenIn := p }
    match tokenTransfer acc2.poolTokenOut acc2.userTokenOut amountOut with
    | none => (some .ledger, acc2)
    | some (p2, u2) =>
      (none, { acc2 with poolTokenOut := p2, userTokenOut := u2 })

/-- The `add_liquidity` handler (lib.rs lines 46-189) as a sequential
state transition: LP issuance is computed from the balances read
before any transfer, the slippage floor is checked, and only then are
the two deposits transferred in and the LP tokens minted. -/
def addLiquidityOp (lpDecimals tokenADecimals tokenBDecimals : Nat)
    (acc : LiqAccounts) (amountA amountB minLpTokens : Nat) :
    Option OpError × LiqAccounts :=
  match lpTokensToMint acc.poolTokenA acc.poolTokenB acc.lpSupply
      lpDecimals tokenADecimals tokenBDecimals amountA amountB with
  | .error e => (some (.amm e), acc)
  | .ok lpMintAmount =>
    if lpMintAmount < minLpTokens then
      (some (.amm .SlippageExceeded), acc)
    else
      match tokenTransfer acc.userTokenA acc.poolTokenA amountA with
      | none => (some .ledger, acc)
      | some (ua, pa) =>
      let acc1 := { acc with userTokenA := ua, poolTokenA := pa }
      match tokenTransfer acc1.userTokenB acc1.poolTokenB amountB with
      | none => (some .ledger, acc1)
      | some (ub, pb) =>
      let acc2 := { acc1 with userTokenB := ub, poolTokenB := pb }
      match tokenMintTo acc2.lpSupply acc2.userLp lpMintAmount with
      | none => (some .ledger, acc2)
      | some (s, ul) =>
        (none, { acc2 with lpSupply := s, userLp := ul })

/-- The `remove_liquidity` handler (lib.rs lines 317-420) as a
sequential state transition: validation and proportional amounts
(`removeAmounts`), both slippage floors, then the two withdrawals out
of the reserves and the burn of the user's LP tokens. -/
def removeLiquidityOp (acc : LiqAccounts)
    (lpAmount minAmountA minAmountB : Nat) :
    Option OpError × LiqAccounts :=
  match removeAmounts lpAmount acc.lpSupply acc.poolTokenA
      acc.poolTokenB with
  | .error e => (some (.amm e), acc)
  | .ok (amountA, amountB) =>
    if amountA < minAmountA then (some (.amm .SlippageExceeded), acc)
    else if amountB < minAmountB then (some (.amm .SlippageExceeded), acc)
    else
      match tokenTransfer acc.poolTokenA acc.userTokenA amountA with
      | none => (some .ledger, acc)
      | some (pa, ua) =>
      let acc1 := { acc with poolTokenA := pa, userTokenA := ua }
      match tokenTransfer acc1.poolTokenB acc1.userTokenB amountB with
      | none => (some .ledger, acc1)
      | some (pb, ub) =>
      let acc2 := { acc1 with poolTokenB := pb, userTokenB := ub }
      match tokenBurn acc2.lpSupply acc2.userLp lpAmount with
      | none => (some .ledger, acc2)
      | some (s, ul) =>
        (none, { acc2 with lpSupply := s, userLp := ul })

/-- Modelled from the spec: the scaled overflow-fallback formula as the
specification states it — `amount_in_after_fee` times the fixed scale
`10^9`, divided by the denominator, multiplied by `reserve_out`,
divided back by the scale — with exact (non-saturating) products.
Used only to compare the specified formula against the code's
saturating computation. -/
def specScaledFallback (rOut aif den : Nat) : Nat :=
  aif * 1000000000 / den * rOut / 1000000000

/-! ## Extraction lemmas for the checked arithmetic and ledger model -/

theorem checkedMul_some {a b c : Nat} (h : checkedMul a b = some c) :
    c = a * b ∧ a * b ≤ U64MAX := by
  unfold checkedMul at h; split at h <;> simp_all

theorem checkedDiv_some {a b c : Nat} (h : checkedDiv a b = some c) :
    c = a / b ∧ 0 < b := by
  unfold checkedDiv at h; split at h <;> simp_all
  omega

theorem checkedSub_some {a b c : Nat} (h : checkedSub a b = some c) :
    c = a - b ∧ b ≤ a := by
  unfold checkedSub at h; split at h <;> simp_all

theorem checkedAdd_some {a b c : Nat} (h : checkedAdd a b = some c) :
    c = a + b ∧ a + b ≤ U64MAX := by
  unfold checkedAdd at h; split at h <;> simp_all

theorem tokenTransfer_some {a b c x y : Nat}
    (h : tokenTransfer a b c = some (x, y)) :
    x = a - c ∧ y = b + c ∧ c ≤ a ∧ b + c ≤ U64MAX := by
  unfold tokenTransfer at h; split at h <;> simp_all

theorem tokenMintTo_some {s d a x y : Nat}
    (h : tokenMintTo s d a = some (x, y)) :
    x = s + a ∧ y = d + a ∧ s + a ≤ U64MAX ∧ d + a ≤ U64MAX := by
  unfold tokenMintTo at h; split at h <;> simp_all

/-! ## Core lemmas on the swap output computation -/

/-- The swap output, on either arithmetic path, never exceeds the exact
rational value: `amount_out * den ≤ amount_in_after_fee * reserve_out`. -/
theorem computeAmountOut_mul_le (rOut aif den : Nat) :
    computeAmountOut rOut aif den * den ≤ aif * rOut := by
  unfold computeAmountOut
  split
  · split
    · -- scaled fallback path
      have hSpos : (0:Nat) < 1000000000 := by norm_num
      have h1 : satMul rOut (satMul aif 1000000000 / den) / 1000000000 * den
          ≤ rOut * (satMul aif 1000000000 / den) * den / 1000000000 := by
        rw [Nat.le_div_iff_mul_le hSpos]
        calc satMul rOut (satMul aif 1000000000 / den) / 1000000000 * den * 1000000000
            = satMul rOut (satMul aif 1000000000 / den) / 1000000000 * 1000000000 * den := by
              ring
          _ ≤ satMul rOut (satMul aif 1000000000 / den) * den :=
              Nat.mul_le_mul_right _ (Nat.div_mul_le_self _ _)
          _ ≤ rOut * (satMul aif 1000000000 / den) * den :=
              Nat.mul_le_mul_right _ (min_le_left _ _)
      have h2 : rOut * (satMul aif 1000000000 / den) * den ≤ aif * rOut * 1000000000 := by
        calc rOut * (satMul aif 1000000000 / den) * den
            = rOut * (satMul aif 1000000000 / den * den) := by ring
          _ ≤ rOut * (aif * 1000000000) := by
              refine Nat.mul_le_mul_left _ ?_
              calc satMul aif 1000000000 / den * den
                  ≤ satMul aif 1000000000 := Nat.div_mul_le_self _ _
                _ ≤ aif * 1000000000 := min_le_left _ _
          _ = aif * rOut * 1000000000 := by ring
      calc satMul rOut (satMul aif 1000000000 / den) / 1000000000 * den
          ≤ rOut * (satMul aif 1000000000 / den) * den / 1000000000 := h1
        _ ≤ aif * rOut * 1000000000 / 1000000000 := Nat.div_le_div_right h2
        _ = aif * rOut := Nat.mul_div_cancel _ hSpos
    · -- direct constant-product path
      calc rOut * aif / den * den ≤ rOut * aif := Nat.div_mul_le_self _ _
        _ = aif * rOut := Nat.mul_comm _ _
  · simp

/-- With a positive input reserve the swap output is strictly below the
output reserve. -/
theorem computeAmountOut_lt_rOut (rOut aif rIn : Nat)
    (hrIn : 0 < rIn) (hrOut : 0 < rOut) :
    computeAmountOut rOut aif (rIn + aif) < rOut := by
  have hkey := computeAmountOut_mul_le rOut aif (rIn + aif)
  by_contra hcon
  push_neg at hcon
  have h1 : rOut * (rIn + aif) ≤ computeAmountOut rOut aif (rIn + aif) * (rIn + aif) :=
    Nat.mul_le_mul_right _ hcon
  have h2 : rOut * rIn + rOut * aif ≤ rOut * aif := by
    calc rOut * rIn + rOut * aif = rOut * (rIn + aif) := (Nat.mul_add _ _ _).symm
      _ ≤ aif * rOut := le_trans h1 hkey
      _ = rOut * aif := Nat.mul_comm _ _
  have hpos : 0 < rOut * rIn := Nat.mul_pos hrOut hrIn
  omega

/-- Everything a successful run of `swapMath` guarantees: positivity of
the validated inputs, the checked fee decomposition, the in-range
denominator and the shape of the output. -/
theorem swapMath_ok {feeNum feeDen rIn rOut amountIn minOut fee aif out : Nat}
    (h : swapMath feeNum feeDen rIn rOut amountIn minOut = .ok (fee, aif, out)) :
    0 < amountIn ∧ 0 < feeDen ∧ fee = amountIn * feeNum / feeDen ∧
    fee ≤ amountIn ∧ aif = amountIn - fee ∧ 0 < rIn ∧ 0 < rOut ∧
    rIn + aif ≤ U64MAX ∧ out = computeAmountOut rOut aif (rIn + aif) ∧
    minOut ≤ out := by
  unfold swapMath at h
  split at h
  · simp at h
  next hIn =>
  split at h
  · simp at h
  next m hm =>
  split at h
  · simp at h
  next fee0 hfee =>
  split at h
  · simp at h
  next aif0 haif =>
  split at h
  · simp at h
  next hrIn =>
  split at h
  · simp at h
  next hrOut =>
  split at h
  · simp at h
  next den hden =>
  simp only [] at h
  split at h
  · simp at h
  next hslip =>
  simp only [Except.ok.injEq, Prod.mk.injEq] at h
  obtain ⟨h1, h2, h3⟩ := h
  subst h1; subst h2; subst h3
  obtain ⟨hm1, _⟩ := checkedMul_some hm
  obtain ⟨hf1, hf2⟩ := checkedDiv_some hfee
  obtain ⟨ha1, ha2⟩ := checkedSub_some haif
  obtain ⟨hd1, hd2⟩ := checkedAdd_some hden
  subst hm1
  exact ⟨Nat.pos_of_ne_zero hIn, hf2, hf1, ha2, ha1, Nat.pos_of_ne_zero hrIn,
    Nat.pos_of_ne_zero hrOut, hd1 ▸ hd2, by rw [← hd1], by omega⟩

theorem swapMath_slippage {feeNum feeDen rIn rOut amountIn minOut fee aif out : Nat}
    (h : swapMath feeNum feeDen rIn rOut amountIn 0 = .ok (fee, aif, out))
    (hlt : out < minOut) :
    swapMath feeNum feeDen rIn rOut amountIn minOut = .error .SlippageExceeded := by
  unfold swapMath at h ⊢
  split at h
  · simp at h
  next hIn =>
  split at h
  · simp at h
  next m hm =>
  split at h
  · simp at h
  next fee0 hfee =>
  split at h
  · simp at h
  next aif0 haif =>
  split at h
  · simp at h
  next hrIn =>
  split at h
  · simp at h
  next hrOut =>
  split at h
  · simp at h
  next den hden =>
  simp only [] at h
  split at h
  · simp at h
  next hslip =>
  simp only [Except.ok.injEq, Prod.mk.injEq] at h
  obtain ⟨rfl, rfl, rfl⟩ := h
  simp only [if_neg hIn, hm, hfee, haif, if_neg hrIn, if_neg hrOut, hden]
  rw [if_pos hlt]



theorem normalizeAmount_pos {lpDec raw tokenDec v : Nat}
    (h : normalizeAmount lpDec raw tokenDec = .ok v) (hv : 0 < v) : 0 < raw := by
  unfold normalizeAmount at h
  split at h
  · simp at h; omega
  split at h
  · simp only [Except.ok.injEq] at h
    rcases Nat.eq_zero_or_pos raw with h0 | h0
    · subst h0; simp at h; omega
    · exact h0
  · simp only [] at h
    split at h
    · simp at h
    · simp only [Except.ok.injEq] at h
      rcases Nat.eq_zero_or_pos raw with h0 | h0
      · subst h0; simp at h; omega
      · exact h0

theorem lpTokensSide_pos {np na s v : Nat}
    (h : lpTokensSide np na s = .ok v) (hv : 0 < v) : 0 < na := by
  unfold lpTokensSide at h
  split at h
  · split at h
    · next hc =>
      split at h
      · simp at h
      · exact hc.1
    · simp at h; omega
  · simp at h; omega

theorem lpTokensToMint_pos_amounts {pa pb sup d1 d2 d3 aA aB m : Nat}
    (hnb : ¬(pa = 0 ∧ pb = 0))
    (h : lpTokensToMint pa pb sup d1 d2 d3 aA aB = .ok m) (hm : 0 < m) :
    0 < aA ∧ 0 < aB := by
  unfold lpTokensToMint at h
  rw [if_neg hnb] at h
  split at h
  · simp at h
  next na hna =>
  split at h
  · simp at h
  next nb hnb2 =>
  split at h
  · simp at h
  next npa hnpa =>
  split at h
  · simp at h
  next npb hnpb =>
  split at h
  · simp at h
  next la hla =>
  split at h
  · simp at h
  next lb hlb =>
  simp only [Except.ok.injEq] at h
  subst h
  have hla0 : 0 < la := lt_of_lt_of_le hm (Nat.min_le_left _ _)
  have hlb0 : 0 < lb := lt_of_lt_of_le hm (Nat.min_le_right _ _)
  exact ⟨normalizeAmount_pos hna (lpTokensSide_pos hla hla0),
    normalizeAmount_pos hnb2 (lpTokensSide_pos hlb hlb0)⟩

theorem addLiquidityOp_ok_supply {lpDec aDec bDec : Nat}
    {acc acc2 : LiqAccounts} {amountA amountB minLp m : Nat}
    (hm : lpTokensToMint acc.poolTokenA acc.poolTokenB acc.lpSupply
        lpDec aDec bDec amountA amountB = .ok m)
    (hop : addLiquidityOp lpDec aDec bDec acc amountA amountB minLp = (none, acc2)) :
    acc2.lpSupply = acc.lpSupply + m := by
  unfold addLiquidityOp at hop
  rw [hm] at hop
  simp only [] at hop
  split at hop
  · simp at hop
  split at hop
  · simp at hop
  next ua pa hta =>
  split at hop
  · simp at hop
  next ub pb htb =>
  split at hop
  · simp at hop
  next s ul hmint =>
  simp only [Prod.mk.injEq] at hop
  obtain ⟨-, rfl⟩ := hop
  obtain ⟨hs, -, -, -⟩ := tokenMintTo_some hmint
  simpa using hs

/-- C1: for every successful swap with `fee_numerator = 0` on a pool
with both reserves positive, the product of the post-swap reserves
`(reserve_in + amount_in_after_fee) * (reserve_out - amount_out)` is at
least the product `reserve_in * reserve_out` of the pre-swap reserves,
on both the direct constant-product path and the scaled
overflow-fallback path. -/
theorem swap_zeroFee_product_nondecreasing
    {feeDen rIn rOut amountIn minOut fee aif out : Nat}
    (h : swapMath 0 feeDen rIn rOut amountIn minOut = .ok (fee, aif, out)) :
    rIn * rOut ≤ (rIn + aif) * (rOut - out) := by
  obtain ⟨hIn, hfd, hfee, hfle, haif, hrIn, hrOut, hden, hout, hmin⟩ := swapMath_ok h
  have hkey : out * (rIn + aif) ≤ aif * rOut := by
    rw [hout]; exact computeAmountOut_mul_le rOut aif (rIn + aif)
  have hlt : out < rOut := by
    rw [hout]; exact computeAmountOut_lt_rOut rOut aif rIn hrIn hrOut
  have hkey2 : (rIn + aif) * out ≤ aif * rOut := by rwa [Nat.mul_comm] at hkey
  have e1 : (rIn + aif) * (rOut - out) + (rIn + aif) * out = (rIn + aif) * rOut := by
    rw [← Nat.mul_add, Nat.sub_add_cancel (le_of_lt hlt)]
  have e2 : (rIn + aif) * rOut = rIn * rOut + aif * rOut := Nat.add_mul _ _ _
  linarith

/-- C1 witness: reserves 100/100, zero fee, `amount_in = 10` gives
`amount_out = 9` and `110 * 91 ≥ 100 * 100`. -/
theorem swap_zeroFee_product_nondecreasing_witness :
    (100:Nat) * 100 ≤ (100 + 10) * (100 - 9) :=
  @swap_zeroFee_product_nondecreasing 1000 100 100 10 0 0 10 9 (by rfl)

/-- C2: every successful swap computes `amount_out` strictly below the
pool's output-reserve balance, on both arithmetic paths, so a swap can
never drain the output reserve. -/
theorem swap_amountOut_lt_reserveOut
    {feeNum feeDen rIn rOut amountIn minOut fee aif out : Nat}
    (h : swapMath feeNum feeDen rIn rOut amountIn minOut = .ok (fee, aif, out)) :
    out < rOut := by
  obtain ⟨-, -, -, -, -, hrIn, hrOut, -, hout, -⟩ := swapMath_ok h
  rw [hout]
  exact computeAmountOut_lt_rOut rOut aif rIn hrIn hrOut

/-- C2 witness: reserves 500000/500000, 0.3% fee, `amount_in = 1000`
gives `amount_out = 995 < 500000`. -/
theorem swap_amountOut_lt_reserveOut_witness : (995:Nat) < 500000 :=
  @swap_amountOut_lt_reserveOut 3 1000 500000 500000 1000 0 3 997 995 (by rfl)

/-- Raising the slippage floor to any value not above the computed
output preserves a successful `swapMath` run. -/
theorem swapMath_raise_min {feeNum feeDen rIn rOut amountIn minOut fee aif out : Nat}
    (h : swapMath feeNum feeDen rIn rOut amountIn 0 = .ok (fee, aif, out))
    (hle : minOut ≤ out) :
    swapMath feeNum feeDen rIn rOut amountIn minOut = .ok (fee, aif, out) := by
  unfold swapMath at h ⊢
  split at h
  · simp at h
  next hIn =>
  split at h
  · simp at h
  next m hm =>
  split at h
  · simp at h
  next fee0 hfee =>
  split at h
  · simp at h
  next aif0 haif =>
  split at h
  · simp at h
  next hrIn =>
  split at h
  · simp at h
  next hrOut =>
  split at h
  · simp at h
  next den hden =>
  simp only [] at h
  split at h
  · simp at h
  next hslip =>
  simp only [Except.ok.injEq, Prod.mk.injEq] at h
  obtain ⟨rfl, rfl, rfl⟩ := h
  simp only [if_neg hIn, hm, hfee, haif, if_neg hrIn, if_neg hrOut, hden]
  rw [if_neg (Nat.not_lt.mpr hle)]

/-- C9: the concrete 0.3%-fee scenario: reserves 1,000,000/1,000,000,
fee 3/1000, `amount_in = 10,000` yields `fee = 30`,
`amount_in_after_fee = 9,970` and `amount_out = 9,871` for every
slippage floor at most 9,871. -/
theorem swap_scenario_fee3_1000 {minOut : Nat} (h : minOut ≤ 9871) :
    swapMath 3 1000 1000000 1000000 10000 minOut = .ok (30, 9970, 9871) :=
  swapMath_raise_min (by rfl) h

/-- C9 witness: the scenario at slippage floor 0. -/
theorem swap_scenario_fee3_1000_witness :
    swapMath 3 1000 1000000 1000000 10000 0 = .ok (30, 9970, 9871) :=
  swap_scenario_fee3_1000 (Nat.zero_le 9871)



/-- C8 (amended): with positive reserves and a positive net input, the
fallback path is taken exactly when `reserve_out > u64::MAX /
amount_in_after_fee`; on it the output is the saturating scaled
computation (each multiplication clamps at `u64::MAX` instead of
wrapping), and otherwise the output is the exact constant-product
quotient whose numerator provably fits in `u64`. The result always
fits in `u64`. -/
theorem swap_fallback_characterization
    {rIn rOut aif : Nat} (hrIn : 0 < rIn) (hrOut : 0 < rOut)
    (haif : 0 < aif) (hru : rOut ≤ U64MAX) :
    (U64MAX / aif < rOut →
      computeAmountOut rOut aif (rIn + aif)
        = satMul rOut (satMul aif 1000000000 / (rIn + aif)) / 1000000000) ∧
    (rOut ≤ U64MAX / aif →
      computeAmountOut rOut aif (rIn + aif) = rOut * aif / (rIn + aif) ∧
        rOut * aif ≤ U64MAX) ∧
    computeAmountOut rOut aif (rIn + aif) ≤ U64MAX := by
  refine ⟨?_, ?_, ?_⟩
  · intro hcond
    unfold computeAmountOut
    rw [if_pos ⟨hrOut, haif⟩, if_pos hcond]
  · intro hcond
    refine ⟨?_, ?_⟩
    · unfold computeAmountOut
      rw [if_pos ⟨hrOut, haif⟩, if_neg (Nat.not_lt.mpr hcond)]
    · calc rOut * aif ≤ U64MAX / aif * aif := Nat.mul_le_mul_right _ hcond
        _ ≤ U64MAX := Nat.div_mul_le_self _ _
  · exact le_trans (le_of_lt (computeAmountOut_lt_rOut rOut aif rIn hrIn hrOut))
      hru

/-- C8 witness: at `reserve_in = 1`, `reserve_out = 16`,
`amount_in_after_fee = 2^60` the fallback condition holds and the
output is the saturating scaled computation. -/
theorem swap_fallback_characterization_witness :
    computeAmountOut 16 1152921504606846976 (1 + 1152921504606846976)
      = satMul 16 (satMul 1152921504606846976 1000000000
          / (1 + 1152921504606846976)) / 1000000000 :=
  (@swap_fallback_characterization 1 16 1152921504606846976 (by decide)
    (by decide) (by decide) (by decide)).1 (by decide)

/-- C8 counterexample: on the fallback path the code's saturating
computation is not the claim's exact formula: with `reserve_in = 1`,
`reserve_out = 16`, a zero fee and `amount_in = 2^60` the fallback
triggers and the code returns `amount_out = 0` while the formula
stated by the claim yields `15`. -/
theorem swap_fallback_saturation_counterexample :
    swapMath 0 1 1 16 1152921504606846976 0
        = .ok (0, 1152921504606846976, 0) ∧
    U64MAX / 1152921504606846976 < 16 ∧
    specScaledFallback 16 1152921504606846976 (1 + 1152921504606846976)
        = 15 :=
  ⟨by rfl, by decide, by rfl⟩



/-- C3 counterexample: `initialize_pool` called with
`fee_denominator = 0` succeeds and stores the zero denominator; it
does not fail with an `InvalidAmount`-class error. -/
theorem initializePool_zero_denominator_succeeds :
    initializePool 1 2 3 4 5 6 255 7 0
      = .ok ⟨1, 2, 3, 4, 5, 7, 0, 6, 255⟩ := rfl

/-- C3 (amended): `initialize_pool` performs no validation of the fee
parameters: it succeeds for every `fee_numerator` and
`fee_denominator`, including `fee_denominator = 0`, and stores both
unchanged in the pool record. -/
theorem initializePool_stores_fee_unchanged
    (tokenAMint tokenBMint tokenAAccount tokenBAccount
      lpMint authority bump feeNum feeDen : Nat) :
    initializePool tokenAMint tokenBMint tokenAAccount tokenBAccount
        lpMint authority bump feeNum feeDen
      = .ok ⟨tokenAMint, tokenBMint, tokenAAccount, tokenBAccount,
          lpMint, feeNum, feeDen, authority, bump⟩ := rfl

/-- C4 evaluation at the failing input: the `swap` handler performs no
validation of the caller-selected asset identities.  With
`token_in_mint = token_out_mint = pool.token_a_mint = 1` (a swap whose
in and out accounts refer to the same asset), reserves 1000/1000 and
`amount_in = 100`, the swap succeeds with `amount_out = 90` instead of
failing with `InvalidAmount`. -/
theorem swap_same_asset_succeeds :
    swapOp ⟨1, 2, 3, 4, 5, 0, 1, 6, 255⟩ 1 1 ⟨1000, 1000, 1000, 0, 0⟩ 100 0
      = (none, ⟨1100, 910, 900, 90, 0⟩) := rfl



/-- C5 counterexample: a successful `add_liquidity` with
`amount_a = 0` and `amount_b = 0` on an empty pool mints the bootstrap
1,000,000 shares, so the share supply strictly increases even though
both deposit amounts are zero. -/
theorem addLiquidity_zero_amounts_increases_supply :
    addLiquidityOp 6 6 6 ⟨0, 0, 0, 0, 0, 0⟩ 0 0 0
        = (none, ⟨0, 0, 0, 0, 1000000, 1000000⟩) ∧ (0:Nat) < 1000000 :=
  ⟨rfl, by decide⟩

/-- C5 (amended): for a successful `add_liquidity` whose computed mint
amount is `m`, the share supply strictly increases iff `m ≠ 0`; on the
bootstrap path (both reserves zero) `m = 1,000,000` regardless of the
deposited amounts, while away from the bootstrap path a nonzero mint
forces both `amount_a > 0` and `amount_b > 0`. -/
theorem addLiquidity_supply_increase_iff
    {lpDec aDec bDec : Nat} {acc acc2 : LiqAccounts}
    {amountA amountB minLp m : Nat}
    (hm : lpTokensToMint acc.poolTokenA acc.poolTokenB acc.lpSupply
        lpDec aDec bDec amountA amountB = .ok m)
    (hop : addLiquidityOp lpDec aDec bDec acc amountA amountB minLp
        = (none, acc2)) :
    (acc.lpSupply < acc2.lpSupply ↔ m ≠ 0) ∧
    (¬(acc.poolTokenA = 0 ∧ acc.poolTokenB = 0) → m ≠ 0 →
      0 < amountA ∧ 0 < amountB) := by
  have hs := addLiquidityOp_ok_supply hm hop
  refine ⟨by omega, fun hnb hm0 => ?_⟩
  exact lpTokensToMint_pos_amounts hnb hm (Nat.pos_of_ne_zero hm0)

/-- C5 witness: a proportional deposit of 1/1 into a 1000/1000 pool
with supply 1,000,000 mints 1000 shares and the supply increases. -/
theorem addLiquidity_supply_increase_iff_witness :
    ((⟨1000, 1000, 10, 10, 0, 1000000⟩ : LiqAccounts).lpSupply
        < (⟨1001, 1001, 9, 9, 1000, 1001000⟩ : LiqAccounts).lpSupply) ∧
      (0 < 1 ∧ 0 < 1) :=
  ⟨(@addLiquidity_supply_increase_iff 6 6 6 ⟨1000, 1000, 10, 10, 0, 1000000⟩
      ⟨1001, 1001, 9, 9, 1000, 1001000⟩ 1 1 0 1000 (by rfl) (by rfl)).1.mpr
      (by decide),
   (@addLiquidity_supply_increase_iff 6 6 6 ⟨1000, 1000, 10, 10, 0, 1000000⟩
      ⟨1001, 1001, 9, 9, 1000, 1001000⟩ 1 1 0 1000 (by rfl) (by rfl)).2
      (by decide) (by decide)⟩

/-- C6: on a pool whose two reserve balances are both zero, the
computed LP issuance is exactly 1,000,000 regardless of `amount_a`,
`amount_b`, the decimals and the current supply, and a successful
`add_liquidity` with `min_lp_tokens ≤ 1,000,000` raises the share
supply by exactly 1,000,000. -/
theorem addLiquidity_bootstrap_mints_million
    {lpDec aDec bDec : Nat} {acc acc2 : LiqAccounts}
    {amountA amountB minLp : Nat}
    (ha : acc.poolTokenA = 0) (hb : acc.poolTokenB = 0)
    (hmin : minLp ≤ 1000000) :
    lpTokensToMint acc.poolTokenA acc.poolTokenB acc.lpSupply
        lpDec aDec bDec amountA amountB = .ok 1000000 ∧
    (addLiquidityOp lpDec aDec bDec acc amountA amountB minLp
        = (none, acc2) →
      acc2.lpSupply = acc.lpSupply + 1000000) := by
  have h1 : lpTokensToMint acc.poolTokenA acc.poolTokenB acc.lpSupply
      lpDec aDec bDec amountA amountB = .ok 1000000 := by
    unfold lpTokensToMint
    rw [if_pos ⟨ha, hb⟩]
  exact ⟨h1, fun hop => addLiquidityOp_ok_supply h1 hop⟩

/-- C6 witness: bootstrap deposit of 5/7 into an empty pool with
slippage floor 123 mints exactly 1,000,000 shares. -/
theorem addLiquidity_bootstrap_mints_million_witness :
    lpTokensToMint (⟨0, 0, 5, 7, 0, 0⟩ : LiqAccounts).poolTokenA
        (⟨0, 0, 5, 7, 0, 0⟩ : LiqAccounts).poolTokenB
        (⟨0, 0, 5, 7, 0, 0⟩ : LiqAccounts).lpSupply 6 9 0 5 7
      = .ok 1000000 ∧
    (addLiquidityOp 6 9 0 ⟨0, 0, 5, 7, 0, 0⟩ 5 7 123
        = (none, ⟨5, 7, 0, 0, 1000000, 1000000⟩) →
      (⟨5, 7, 0, 0, 1000000, 1000000⟩ : LiqAccounts).lpSupply
        = (⟨0, 0, 5, 7, 0, 0⟩ : LiqAccounts).lpSupply + 1000000) :=
  @addLiquidity_bootstrap_mints_million 6 9 0 ⟨0, 0, 5, 7, 0, 0⟩
    ⟨5, 7, 0, 0, 1000000, 1000000⟩ 5 7 123 rfl rfl (by decide)



theorem removeSide_overflow {lp sup r : Nat} (hlp : 0 < lp) (hr : 0 < r)
    (hov : U64MAX / r < lp) :
    removeSide lp sup r = .error .ArithmeticOverflow := by
  unfold removeSide
  rw [if_pos ⟨hlp, hr⟩, if_pos hov]

theorem removeSide_ok {lp sup r : Nat} (h : r = 0 ∨ lp ≤ U64MAX / r) :
    removeSide lp sup r = .ok (lp * r / sup) := by
  unfold removeSide
  rcases h with h | h
  · rw [if_neg (by simp [h])]
    simp [h]
  · by_cases hr : 0 < r
    · by_cases hlp : 0 < lp
      · rw [if_pos ⟨hlp, hr⟩, if_neg (Nat.not_lt.mpr h)]
      · rw [if_neg (fun hc => hlp hc.1)]
        have h0 : lp = 0 := by omega
        simp [h0]
    · rw [if_neg (fun hc => hr hc.2)]
      have h0 : r = 0 := by omega
      simp [h0]

/-- C10: `remove_liquidity` validation and withdrawal arithmetic:
`InvalidAmount` when `lp_amount = 0` or the share supply is `0`;
otherwise `ArithmeticOverflow` when a side with a positive reserve has
`lp_amount > u64::MAX / reserve`, and else exactly the floor-division
proportional amounts, a zero reserve yielding `0` for its side. -/
theorem removeLiquidity_amounts_spec
    {lpAmount lpSupply ra rb : Nat} :
    ((lpAmount = 0 ∨ lpSupply = 0) →
        removeAmounts lpAmount lpSupply ra rb = .error .InvalidAmount) ∧
    (0 < lpAmount → 0 < lpSupply →
      ((0 < ra → U64MAX / ra < lpAmount →
          removeAmounts lpAmount lpSupply ra rb
            = .error .ArithmeticOverflow) ∧
       ((ra = 0 ∨ lpAmount ≤ U64MAX / ra) → 0 < rb →
          U64MAX / rb < lpAmount →
          removeAmounts lpAmount lpSupply ra rb
            = .error .ArithmeticOverflow) ∧
       ((ra = 0 ∨ lpAmount ≤ U64MAX / ra) →
        (rb = 0 ∨ lpAmount ≤ U64MAX / rb) →
          removeAmounts lpAmount lpSupply ra rb
            = .ok (lpAmount * ra / lpSupply, lpAmount * rb / lpSupply)))) := by
  constructor
  · intro h0
    unfold removeAmounts
    by_cases hA : lpAmount = 0
    · rw [if_pos hA]
    · rw [if_neg hA, if_pos (h0.resolve_left hA)]
  · intro hlp hsup
    have hA : ¬lpAmount = 0 := by omega
    have hS : ¬lpSupply = 0 := by omega
    refine ⟨?_, ?_, ?_⟩
    · intro hra hov
      unfold removeAmounts
      rw [if_neg hA, if_neg hS, removeSide_overflow hlp hra hov]
    · intro h1 hrb hov
      unfold removeAmounts
      rw [if_neg hA, if_neg hS, removeSide_ok h1,
        removeSide_overflow hlp hrb hov]
    · intro h1 h2
      unfold removeAmounts
      rw [if_neg hA, if_neg hS, removeSide_ok h1, removeSide_ok h2]

/-- C10 witness: redeeming 10 of 100 shares against reserves 50 and 0
returns exactly `(5, 0)`. -/
theorem removeLiquidity_amounts_spec_witness :
    removeAmounts 10 100 50 0 = .ok (5, 0) :=
  ((@removeLiquidity_amounts_spec 10 100 50 0).2 (by decide)
    (by decide)).2.2 (Or.inr (by decide)) (Or.inl rfl)



/-- C7: in all three operations the slippage check precedes every
ledger instruction: whenever the computed amount (LP issuance, swap
output, or either withdrawal side) is below the caller's floor, the
operation returns `SlippageExceeded` with the account state exactly as
it was — no transfer, mint or burn has been issued. -/
theorem slippage_aborts_without_movement :
    (∀ lpDec aDec bDec (acc : LiqAccounts) amountA amountB minLp m,
      lpTokensToMint acc.poolTokenA acc.poolTokenB acc.lpSupply
          lpDec aDec bDec amountA amountB = .ok m →
      m < minLp →
      addLiquidityOp lpDec aDec bDec acc amountA amountB minLp
        = (some (.amm .SlippageExceeded), acc)) ∧
    (∀ (pool : Pool) tim tom (acc : SwapAccounts) amountIn minOut fee aif out,
      swapMath pool.feeNumerator pool.feeDenominator acc.poolTokenIn
          acc.poolTokenOut amountIn 0 = .ok (fee, aif, out) →
      out < minOut →
      swapOp pool tim tom acc amountIn minOut
        = (some (.amm .SlippageExceeded), acc)) ∧
    (∀ (acc : LiqAccounts) lpAmount minA minB a b,
      removeAmounts lpAmount acc.lpSupply acc.poolTokenA acc.poolTokenB
        = .ok (a, b) →
      (a < minA ∨ b < minB) →
      removeLiquidityOp acc lpAmount minA minB
        = (some (.amm .SlippageExceeded), acc)) := by
  refine ⟨?_, ?_, ?_⟩
  · intro lpDec aDec bDec acc amountA amountB minLp m hm hlt
    unfold addLiquidityOp
    split
    · next e heq =>
      rw [hm] at heq
      simp at heq
    · next lpMintAmount heq =>
      rw [hm] at heq
      simp only [Except.ok.injEq] at heq
      subst heq
      rw [if_pos hlt]
  · intro pool tim tom acc amountIn minOut fee aif out h0 hlt
    unfold swapOp
    rw [swapMath_slippage h0 hlt]
  · intro acc lpAmount minA minB a b hra hor
    unfold removeLiquidityOp
    split
    · next e heq =>
      rw [hra] at heq
      simp at heq
    · next x y heq =>
      rw [hra] at heq
      simp only [Except.ok.injEq, Prod.mk.injEq] at heq
      obtain ⟨h1eq, h2eq⟩ := heq
      subst h1eq
      subst h2eq
      rcases hor with h1 | h2
      · rw [if_pos h1]
      · by_cases hA : a < minA
        · rw [if_pos hA]
        · rw [if_neg hA, if_pos h2]

/-- C7 witness: a concrete slippage failure of each operation leaves
the concrete account state untouched. -/
theorem slippage_aborts_without_movement_witness :
    addLiquidityOp 6 6 6 ⟨1000, 1000, 10, 10, 0, 1000000⟩ 1 1 2000
        = (some (.amm .SlippageExceeded), ⟨1000, 1000, 10, 10, 0, 1000000⟩) ∧
    swapOp ⟨1, 2, 3, 4, 5, 3, 1000, 6, 255⟩ 1 2 ⟨500000, 500000, 2000, 0, 0⟩
        1000 996
        = (some (.amm .SlippageExceeded), ⟨500000, 500000, 2000, 0, 0⟩) ∧
    removeLiquidityOp ⟨5000, 7000, 0, 0, 200, 1000⟩ 100 501 0
        = (some (.amm .SlippageExceeded), ⟨5000, 7000, 0, 0, 200, 1000⟩) :=
  ⟨slippage_aborts_without_movement.1 6 6 6 ⟨1000, 1000, 10, 10, 0, 1000000⟩
      1 1 2000 1000 (by rfl) (by decide),
   slippage_aborts_without_movement.2.1 ⟨1, 2, 3, 4, 5, 3, 1000, 6, 255⟩ 1 2
      ⟨500000, 500000, 2000, 0, 0⟩ 1000 996 3 997 995 (by rfl) (by decide),
   slippage_aborts_without_movement.2.2 ⟨5000, 7000, 0, 0, 200, 1000⟩
      100 501 0 500 700 (by rfl) (Or.inl (by decide))⟩

end NewSendSwap
